import Mathlib

/-!
# SoundBored — verification of the pad component

Shallow embedding of the core logic of `src/lib/Soundbored.svelte`:
the grid builder (`initializePads`), the color mapper (`getPadColor`),
the MIDI decoder (`handleMIDIMessage`), the pad state machine
(`triggerPad` / `releasePad` and the 100ms decay timer), and the audio
bank (`loadDefaultSounds`, `loadCustomSound`, `playSound`).

Modelling conventions:
* JavaScript `Map` objects are modelled by association lists with a
  `mapSet` that replaces the binding of an existing key in place and
  appends a new key at the end, exactly like `Map.set`.
* `Array.prototype.findIndex` (returning `-1` on no match) is modelled
  by `findIndex` returning `Option Nat`.
* The component's mutable top-level variables are gathered in one
  `AppState` record; each handler becomes a function `... → AppState`.
* Asynchronous completions (the 100ms decay `setTimeout`, audio decode)
  are modelled as explicit events: a scheduled decay callback is the
  pad index it captured, kept in `pendingDecays`; firing it is the
  `fireDecay` transition.  Wall-clock durations themselves are not
  modelled.
* Audio sample data (the float PCM filled by the synthesis loop, or the
  result of `decodeAudioData`) is abstracted: a default tone buffer is
  tagged with its pad's MIDI note, a decoded custom buffer with an
  abstract token.  Playback is recorded in a `played` log instead of
  being sent to the platform audio graph.
-/

namespace SoundBored

/-- An entry of the audio bank (`audioBuffers`).  Sample contents are
abstracted (floating-point PCM is not modelled): a default tone is
determined by its pad's MIDI note, a decoded user buffer by a token. -/
inductive Buffer where
  | defaultTone (note : Nat)
  | decoded (token : Nat)
deriving DecidableEq, Repr

/-- Color scheme options (`COLOR_SCHEMES` in the source). -/
inductive ColorScheme where
  | rainbow | musicTheory | checkerboard | neonGlow | mpc | midnight
deriving DecidableEq, Repr

/-- Grid size options (`GRID_SIZES` in the source). -/
inductive GridSize where
  | g3x3 | g4x4 | g5x5 | g6x6 | g7x7 | g8x8 | g12x2
deriving DecidableEq, Repr

/-- `GRID_DIMENSIONS`: rows and columns for each grid size.  Note that
the option labelled `12x2` has `rows: 2, cols: 12` in the source. -/
def gridDimensions : GridSize → Nat × Nat
  | .g3x3 => (3, 3)
  | .g4x4 => (4, 4)
  | .g5x5 => (5, 5)
  | .g6x6 => (6, 6)
  | .g7x7 => (7, 7)
  | .g8x8 => (8, 8)
  | .g12x2 => (2, 12)

/-- One pad descriptor, as built by `initializePads`.  The derived
`color` field (filled in by `applyColorScheme`) is represented by the
`getPadColor` function rather than stored in the record, since no claim
depends on the stored copy. -/
structure Pad where
  id : Nat
  note : Nat
  soundFile : String
  isActive : Bool
  isPressed : Bool
  row : Nat
  col : Nat
  noteName : String
  hasCustomSound : Bool
deriving DecidableEq, Repr

/-- `getNoteName`: note name from a MIDI note number.  The octave is
`Math.floor(midiNote / 12) - 1`, computed over `Int` as in JS. -/
def getNoteName (midiNote : Nat) : String :=
  let noteNames :=
    ["C", "C#", "D", "D#", "E", "F"] ++ ["F#", "G", "G#", "A", "A#", "B"]
  let noteName := noteNames.getD (midiNote % 12) ""
  let octave : Int := (midiNote : Int) / 12 - 1
  noteName ++ toString octave

/-- The default sound id of pad `i`: `` `default-sound-${i}` ``. -/
def defaultSoundId (i : Nat) : String := "default-sound-" ++ Nat.repr i

/-- The id generated for a custom sound of pad `padId` at time `now`
(`Date.now()` in ms): `` `custom-sound-${padId}-${Date.now()}` ``. -/
def customSoundId (padId now : Nat) : String :=
  "custom-sound-" ++ Nat.repr padId ++ "-" ++ Nat.repr now

/-- `initializePads`: the source iterates `row` from `rows-1` down to
`0` and `col` from `0` to `cols-1`, pushing a pad with linear index
`i = (rows-1-row)*cols + col` and `note = 36 + i`.  Reindexing the
outer loop by `k = rows-1-row` (so `row = rows-1-k`) gives the
ascending iteration below, with `i = k*cols + col`. -/
def initializePads (rows cols : Nat) : List Pad :=
  (List.range rows).flatMap fun k =>
    (List.range cols).map fun col =>
      let i := k * cols + col
      let note := 36 + i
      { id := i
        note := note
        soundFile := defaultSoundId i
        isActive := false
        isPressed := false
        row := rows - 1 - k
        col := col
        noteName := getNoteName note
        hasCustomSound := false }

/-- The fixed 8-entry palette of the `midnight` scheme. -/
def synthwaveColors : List String :=
  ["#0f1e45", "#1a2151", "#4a1e9e", "#7b2fbe", "#e92efb", "#ff2a6d", "#1eaedb", "#00fff5"]

/-- `getPadColor`: pad display color for the selected scheme.  The
selected scheme (a component-level variable in the source) is passed
explicitly. -/
def getPadColor (scheme : ColorScheme) (pad : Pad) : String :=
  let note := pad.note
  let row := pad.row
  let col := pad.col
  let noteValue := note % 12
  match scheme with
  | .rainbow =>
      let hue := (noteValue * 30 + row * 15) % 360
      "hsl(" ++ Nat.repr hue ++ ", 85%, 65%)"
  | .musicTheory =>
      if noteValue = 0 then "#FF5252"
      else if noteValue = 5 then "#448AFF"
      else if noteValue = 7 then "#69F0AE"
      else "#9E9E9E"
  | .checkerboard =>
      if (row + col) % 2 = 0 then "#212121" else "#616161"
  | .neonGlow =>
      let neonHue := (noteValue * 30) % 360
      "hsl(" ++ Nat.repr neonHue ++ ", 100%, 65%)"
  | .mpc => "#424242"
  | .midnight =>
      let colorIndex := (noteValue + row * 2) % synthwaveColors.length
      synthwaveColors.getD colorIndex "#616161"

/-- JS `Map.set`: replace the value of an existing key in place,
otherwise append the new binding at the end. -/
def mapSet {κ β : Type} [DecidableEq κ] : List (κ × β) → κ → β → List (κ × β)
  | [], k, v => [(k, v)]
  | (k', v') :: rest, k, v =>
      if k' = k then (k, v) :: rest else (k', v') :: mapSet rest k v

/-- JS `Map.get`: the value bound to `k`, if any. -/
def mapGet? {κ β : Type} [DecidableEq κ] : List (κ × β) → κ → Option β
  | [], _ => none
  | (k', v') :: rest, k => if k' = k then some v' else mapGet? rest k

/-- `Array.prototype.findIndex` (the `-1` result becomes `none`). -/
def findIndex {α : Type} (p : α → Bool) : List α → Option Nat
  | [] => none
  | x :: xs => if p x then some 0 else (findIndex p xs).map (· + 1)

/-- In-place update of the element at an index (`pads[padIndex].f = v`
in the source); out-of-range indices leave the list unchanged. -/
def setAt {α : Type} : List α → Nat → (α → α) → List α
  | [], _, _ => []
  | x :: xs, 0, f => f x :: xs
  | x :: xs, n + 1, f => x :: setAt xs n f

/-- The component's mutable top-level state.  `pendingDecays` holds the
pad indices captured by scheduled 100ms decay `setTimeout` callbacks
that have not fired yet, in scheduling order; `played` logs the sound
ids handed to the audio graph. -/
structure AppState where
  pads : List Pad
  audioBuffers : List (String × Buffer)
  customSoundNames : List (Nat × String)
  error : Option String
  selectedGridSize : GridSize
  pendingDecays : List Nat
  played : List String
deriving DecidableEq, Repr

/-- `playSound`: look up the buffer; if present, start one-shot
playback (recorded in `played`); if no buffer is registered for the
id, do nothing.  (The `audioContext.resume()` side effect carries no
observable state here.) -/
def playSound (soundFile : String) (s : AppState) : AppState :=
  match mapGet? s.audioBuffers soundFile with
  | some _ => { s with played := s.played ++ [soundFile] }
  | none => s

/-- `triggerPad`: find the pad with the given note; if found, set
`isActive` and `isPressed` and play its current `soundFile`.  (The
`initAudio()` call only resumes the audio context and is not
modelled.) -/
def triggerPad (note : Nat) (s : AppState) : AppState :=
  match findIndex (fun pad => pad.note == note) s.pads with
  | some padIndex =>
      let pads' := setAt s.pads padIndex fun p =>
        { p with isActive := true, isPressed := true }
      let s' := { s with pads := pads' }
      match pads'[padIndex]? with
      | some p => playSound p.soundFile s'
      | none => s'
  | none => s

/-- `releasePad`: find the pad with the given note; if found, clear
`isPressed` (keeping `isActive`) and schedule a 100ms decay timeout
whose callback captured `padIndex`. -/
def releasePad (note : Nat) (s : AppState) : AppState :=
  match findIndex (fun pad => pad.note == note) s.pads with
  | some padIndex =>
      { s with
          pads := setAt s.pads padIndex fun p => { p with isPressed := false }
          pendingDecays := s.pendingDecays ++ [padIndex] }
  | none => s

/-- Firing of one scheduled decay timeout: the callback clears
`isActive` of the pad at the captured index.  The fired timer is
removed from the pending list. -/
def fireDecay (padIndex : Nat) (s : AppState) : AppState :=
  { s with
      pads := setAt s.pads padIndex fun p => { p with isActive := false }
      pendingDecays := s.pendingDecays.erase padIndex }

/-- `handleGlobalMouseUp` / `handleGlobalTouchEnd`: release every pad
that is currently pressed. -/
def handleGlobalMouseUp (s : AppState) : AppState :=
  (s.pads.filter fun p => p.isPressed).foldl (fun st p => releasePad p.note st) s

/-- A logical note event, the spec's view of what `handleMIDIMessage`
does: calling `triggerPad note` is a press, `releasePad note` a
release. -/
inductive MidiEvent where
  | press (note : Nat)
  | release (note : Nat)
deriving DecidableEq, Repr

/-- The classification performed by `handleMIDIMessage` on a 3-byte
message `[d0, d1, d2]`: status high nibble `0x9` with velocity `> 0`
presses note `d1`, with velocity `0` releases it; high nibble `0x8`
releases it; anything else is ignored. -/
def decodeMIDIMessage (d0 d1 d2 : Nat) : Option MidiEvent :=
  if d0 &&& 0xf0 == 0x90 then
    if d2 > 0 then some (.press d1) else some (.release d1)
  else if d0 &&& 0xf0 == 0x80 then some (.release d1)
  else none

/-- `handleMIDIMessage` acting on the component state. -/
def handleMIDIMessage (d0 d1 d2 : Nat) (s : AppState) : AppState :=
  match decodeMIDIMessage d0 d1 d2 with
  | some (.press n) => triggerPad n s
  | some (.release n) => releasePad n s
  | none => s

/-- The default synthesized tone for a pad: a 0.5s stereo decaying sine
at `220·2^((note-57)/12)` Hz; its samples are abstracted, the buffer is
determined by the note. -/
def defaultToneBuffer (note : Nat) : Buffer := .defaultTone note

/-- `loadDefaultSounds`: for each pad, synthesize its default tone and
store it in the bank under the pad's `soundFile`. -/
def loadDefaultSounds (soundPads : List Pad) (buffers : List (String × Buffer)) :
    List (String × Buffer) :=
  soundPads.foldl (fun bs pad => mapSet bs pad.soundFile (defaultToneBuffer pad.note)) buffers

/-- `loadCustomSound`: the decode of the user file is passed in as an
`Except` (`.error msg` models `decodeAudioData` rejecting, caught by
the `try/catch`); `now` is `Date.now()`.  On success, store the buffer
under `custom-sound-${padId}-${now}`, rebind the pad's `soundFile`,
set `hasCustomSound`, and record the file name; on failure, only set
the error message.  Returns the state and the boolean result. -/
def loadCustomSound (decoded : Except String Buffer) (fileName : String)
    (padId : Nat) (now : Nat) (s : AppState) : AppState × Bool :=
  match decoded with
  | .error msg =>
      ({ s with error := some ("Failed to load sound file: " ++ msg) }, false)
  | .ok audioBuffer =>
      match findIndex (fun pad => pad.id == padId) s.pads with
      | some padIndex =>
          let soundId := customSoundId padId now
          ({ s with
              audioBuffers := mapSet s.audioBuffers soundId audioBuffer
              pads := setAt s.pads padIndex fun p =>
                { p with soundFile := soundId, hasCustomSound := true }
              customSoundNames := mapSet s.customSoundNames padId fileName }, true)
      | none => (s, true)

/-- `handleGridSizeChange`: select the new grid size, rebuild the pads,
regenerate the default tones, and reset the custom sound names. -/
def handleGridSizeChange (gs : GridSize) (s : AppState) : AppState :=
  let dims := gridDimensions gs
  let pads' := initializePads dims.1 dims.2
  { s with
      selectedGridSize := gs
      pads := pads'
      audioBuffers := loadDefaultSounds pads' s.audioBuffers
      customSoundNames := [] }

/-- The component state right after `onMount`: the default 4×4 grid
with its default tones loaded, no custom names, no pending timers. -/
def mountState : AppState :=
  let pads0 := initializePads 4 4
  { pads := pads0
    audioBuffers := loadDefaultSounds pads0 []
    customSoundNames := []
    error := none
    selectedGridSize := .g4x4
    pendingDecays := []
    played := [] }

/-- The pad that `initializePads rows cols` places at list position `i`. -/
def padAt (rows cols i : Nat) : Pad :=
  { id := i
    note := 36 + i
    soundFile := defaultSoundId i
    isActive := false
    isPressed := false
    row := rows - 1 - i / cols
    col := i % cols
    noteName := getNoteName (36 + i)
    hasCustomSound := false }

/-- Numeric value of a decimal digit character (used to decode
`Nat.repr` when proving sound-id injectivity). -/
def digitVal (c : Char) : Nat := c.toNat - 48


/-- One event-loop callback of the component, as delivered by the
platform: a press (pointer/touch/MIDI note-on), a release
(pointer-up/MIDI note-off), the firing of a scheduled decay timeout
(enabled only while it is pending), a global pointer-up, a grid size
change, or the completion of a custom sound load. -/
inductive Step : AppState → AppState → Prop where
  | press (n : Nat) (s : AppState) : Step s (triggerPad n s)
  | release (n : Nat) (s : AppState) : Step s (releasePad n s)
  | decay (i : Nat) (s : AppState) (h : i ∈ s.pendingDecays) : Step s (fireDecay i s)
  | globalUp (s : AppState) : Step s (handleGlobalMouseUp s)
  | gridChange (gs : GridSize) (s : AppState) : Step s (handleGridSizeChange gs s)
  | customLoad (d : Except String Buffer) (fn : String) (pid t : Nat) (s : AppState) :
      Step s (loadCustomSound d fn pid t s).1

/-- States reachable from the mounted component. -/
def Reachable (s : AppState) : Prop := Relation.ReflTransGen Step mountState s

/-- The same event system, restricted so that a press never lands on a
pad that still has a pending decay timeout (i.e. no stale timer ever
fires while its pad is held). -/
inductive GStep : AppState → AppState → Prop where
  | press (n : Nat) (s : AppState)
      (hg : ∀ i, findIndex (fun pad => pad.note == n) s.pads = some i →
        i ∉ s.pendingDecays) : GStep s (triggerPad n s)
  | release (n : Nat) (s : AppState) : GStep s (releasePad n s)
  | decay (i : Nat) (s : AppState) (h : i ∈ s.pendingDecays) : GStep s (fireDecay i s)
  | globalUp (s : AppState) : GStep s (handleGlobalMouseUp s)
  | gridChange (gs : GridSize) (s : AppState) : GStep s (handleGridSizeChange gs s)
  | customLoad (d : Except String Buffer) (fn : String) (pid t : Nat) (s : AppState) :
      GStep s (loadCustomSound d fn pid t s).1

/-- States reachable from the mounted component without ever pressing a
pad whose decay timer is still pending. -/
def GReachable (s : AppState) : Prop := Relation.ReflTransGen GStep mountState s


/-- Auxiliary invariant for the guarded system: a pressed pad is lit
and has no pending decay timer for its index. -/
def PadFlagsInv (s : AppState) : Prop :=
  ∀ i p, s.pads[i]? = some p → p.isPressed = true →
    p.isActive = true ∧ i ∉ s.pendingDecays

/-! ## List utility lemmas -/

theorem setAt_length {α : Type} (l : List α) (i : Nat) (f : α → α) :
    (setAt l i f).length = l.length := by
  induction l generalizing i with
  | nil => rfl
  | cons x xs ih =>
      cases i with
      | zero => rfl
      | succ n => simp [setAt, ih]

theorem getElem?_setAt_self {α : Type} (l : List α) (i : Nat) (f : α → α) :
    (setAt l i f)[i]? = (l[i]?).map f := by
  induction l generalizing i with
  | nil => simp [setAt]
  | cons x xs ih =>
      cases i with
      | zero => simp [setAt]
      | succ n => simpa [setAt] using ih n

theorem getElem?_setAt_ne {α : Type} (l : List α) (i j : Nat) (f : α → α)
    (h : j ≠ i) : (setAt l i f)[j]? = l[j]? := by
  induction l generalizing i j with
  | nil => simp [setAt]
  | cons x xs ih =>
      cases i with
      | zero =>
          cases j with
          | zero => exact absurd rfl h
          | succ m => simp [setAt]
      | succ n =>
          cases j with
          | zero => simp [setAt]
          | succ m =>
              simpa [setAt] using ih n m (fun hc => h (by simp [hc]))

theorem findIndex_eq_none_iff {α : Type} (p : α → Bool) (l : List α) :
    findIndex p l = none ↔ ∀ x ∈ l, p x = false := by
  induction l with
  | nil => simp [findIndex]
  | cons x xs ih =>
      by_cases hx : p x
      · simp [findIndex, hx]
      · have hstep : findIndex p (x :: xs) = (findIndex p xs).map (· + 1) := by
          simp [findIndex, hx]
        have hmap : ((findIndex p xs).map (· + 1) = none) ↔ findIndex p xs = none := by
          cases findIndex p xs <;> simp
        rw [hstep, hmap, ih]
        simp only [List.mem_cons]
        constructor
        · intro h y hy
          rcases hy with rfl | hy
          · simpa using hx
          · exact h y hy
        · intro h y hy
          exact h y (Or.inr hy)

theorem findIndex_some {α : Type} (p : α → Bool) (l : List α) (i : Nat)
    (h : findIndex p l = some i) : ∃ x, l[i]? = some x ∧ p x = true := by
  induction l generalizing i with
  | nil => simp [findIndex] at h
  | cons x xs ih =>
      by_cases hx : p x
      · simp only [findIndex, hx, if_true, Option.some.injEq] at h
        subst h
        exact ⟨x, by simp, hx⟩
      · have hstep : findIndex p (x :: xs) = (findIndex p xs).map (· + 1) := by
          simp [findIndex, hx]
        rw [hstep] at h
        cases hfx : findIndex p xs with
        | none => rw [hfx] at h; exact Option.noConfusion h
        | some j =>
            rw [hfx] at h
            have hji : j + 1 = i := by simpa using h
            subst hji
            obtain ⟨y, hy, hpy⟩ := ih j hfx
            exact ⟨y, by simpa using hy, hpy⟩

theorem findIndex_setAt {α : Type} (p : α → Bool) (l : List α) (i : Nat)
    (f : α → α) (hf : ∀ x, p (f x) = p x) :
    findIndex p (setAt l i f) = findIndex p l := by
  induction l generalizing i with
  | nil => rfl
  | cons x xs ih =>
      cases i with
      | zero => simp [setAt, findIndex, hf]
      | succ n => simp [setAt, findIndex, ih]

theorem mapGet?_mapSet_self {κ β : Type} [DecidableEq κ]
    (m : List (κ × β)) (k : κ) (v : β) : mapGet? (mapSet m k v) k = some v := by
  induction m with
  | nil => simp [mapSet, mapGet?]
  | cons kv rest ih =>
      obtain ⟨k', v'⟩ := kv
      by_cases hk : k' = k
      · simp [mapSet, hk, mapGet?]
      · simp [mapSet, hk, mapGet?, ih]

theorem mapGet?_mapSet_ne {κ β : Type} [DecidableEq κ]
    (m : List (κ × β)) (k k' : κ) (v : β) (h : k' ≠ k) :
    mapGet? (mapSet m k v) k' = mapGet? m k' := by
  induction m with
  | nil => simp [mapSet, mapGet?, Ne.symm h]
  | cons kv rest ih =>
      obtain ⟨k0, v0⟩ := kv
      by_cases hk : k0 = k
      · subst hk
        simp [mapSet, mapGet?, Ne.symm h]
      · simp only [mapSet, hk, if_false]
        by_cases hk' : k0 = k'
        · simp [mapGet?, hk']
        · simp [mapGet?, hk', ih]

theorem mapGet?_foldl_mapSet_not_mem {α κ β : Type} [DecidableEq κ]
    (key : α → κ) (val : α → β) (l : List α) (m : List (κ × β)) (k : κ)
    (h : k ∉ l.map key) :
    mapGet? (l.foldl (fun acc y => mapSet acc (key y) (val y)) m) k = mapGet? m k := by
  induction l generalizing m with
  | nil => rfl
  | cons y ys ih =>
      simp only [List.map_cons, List.mem_cons, not_or] at h
      simp only [List.foldl_cons]
      rw [ih _ h.2, mapGet?_mapSet_ne _ _ _ _ h.1]

theorem mapGet?_foldl_mapSet {α κ β : Type} [DecidableEq κ]
    (key : α → κ) (val : α → β) (l : List α) (m : List (κ × β)) (x : α)
    (hx : x ∈ l) (hnd : (l.map key).Nodup) :
    mapGet? (l.foldl (fun acc y => mapSet acc (key y) (val y)) m) (key x) = some (val x) := by
  induction l generalizing m with
  | nil => cases hx
  | cons y ys ih =>
      simp only [List.map_cons, List.nodup_cons] at hnd
      rcases List.mem_cons.mp hx with rfl | hx'
      · simp only [List.foldl_cons]
        rw [mapGet?_foldl_mapSet_not_mem _ _ _ _ _ hnd.1, mapGet?_mapSet_self]
      · exact ih _ hx' hnd.2

/-! ## Normal form of `initializePads` -/

theorem range_flatMap_range {α : Type} (g : Nat → Nat → α) (rows cols : Nat)
    (hc : 0 < cols) :
    ((List.range rows).flatMap fun k => (List.range cols).map fun c => g k c)
      = (List.range (rows * cols)).map fun i => g (i / cols) (i % cols) := by
  induction rows with
  | zero => simp
  | succ n ih =>
      rw [List.range_succ, List.flatMap_append, ih, Nat.succ_mul, List.range_add,
        List.map_append, List.map_map]
      congr 1
      · simp only [List.flatMap_cons, List.flatMap_nil, List.append_nil]
        apply List.map_congr_left
        intro j hj
        have hjc : j < cols := List.mem_range.mp hj
        have hdiv : (n * cols + j) / cols = n := by
          rw [Nat.mul_comm n cols, Nat.mul_add_div hc, Nat.div_eq_of_lt hjc]
          omega
        have hmod : (n * cols + j) % cols = j := by
          rw [Nat.mul_comm n cols, Nat.mul_add_mod, Nat.mod_eq_of_lt hjc]
        simp only [Function.comp_apply, hdiv, hmod]

theorem initializePads_eq_map (rows cols : Nat) (hc : 0 < cols) :
    initializePads rows cols = (List.range (rows * cols)).map (padAt rows cols) := by
  unfold initializePads
  rw [range_flatMap_range _ _ _ hc]
  apply List.map_congr_left
  intro i hi
  have hid : i / cols * cols + i % cols = i := by
    rw [Nat.mul_comm]
    exact Nat.div_add_mod i cols
  simp [padAt, hid]

theorem getElem?_initializePads (rows cols i : Nat) (hc : 0 < cols)
    (hi : i < rows * cols) :
    (initializePads rows cols)[i]? = some (padAt rows cols i) := by
  rw [initializePads_eq_map rows cols hc, List.getElem?_map, List.getElem?_range hi]
  rfl

theorem mem_initializePads (rows cols : Nat) (hc : 0 < cols) (p : Pad)
    (hp : p ∈ initializePads rows cols) :
    ∃ i, i < rows * cols ∧ p = padAt rows cols i := by
  rw [initializePads_eq_map rows cols hc] at hp
  obtain ⟨i, hi, rfl⟩ := List.mem_map.mp hp
  exact ⟨i, List.mem_range.mp hi, rfl⟩

/-! ## Decimal rendering: `Nat.repr` decode, injectivity, dash-freeness -/

theorem digitVal_digitChar : ∀ m, m < 10 → digitVal (Nat.digitChar m) = m := by decide

theorem digitChar_ne_dash : ∀ m, m < 10 → Nat.digitChar m ≠ '-' := by decide

theorem toDigitsCore_append :
    ∀ (f n : Nat) (ds : List Char),
      Nat.toDigitsCore 10 f n ds = Nat.toDigitsCore 10 f n [] ++ ds := by
  intro f
  induction f with
  | zero => intro n ds; rfl
  | succ f ih =>
      intro n ds
      by_cases h : n / 10 = 0
      · simp [Nat.toDigitsCore, h]
      · simp only [Nat.toDigitsCore, h, if_false]
        rw [ih (n / 10) (Nat.digitChar (n % 10) :: ds),
          ih (n / 10) [Nat.digitChar (n % 10)], List.append_assoc]
        rfl

theorem foldl_toDigitsCore :
    ∀ (f n : Nat), n < f → ∀ (acc : Nat),
      (Nat.toDigitsCore 10 f n []).foldl (fun a c => 10 * a + digitVal c) acc
        = acc * 10 ^ (Nat.toDigitsCore 10 f n []).length + n := by
  intro f
  induction f with
  | zero => intro n hn; omega
  | succ f ih =>
      intro n hn acc
      by_cases h : n / 10 = 0
      · have hn10 : n < 10 := by omega
        simp only [Nat.toDigitsCore, h, if_true]
        simp [Nat.mod_eq_of_lt hn10]
        rw [digitVal_digitChar n hn10]
        ring
      · simp only [Nat.toDigitsCore, h, if_false]
        rw [toDigitsCore_append f (n / 10) [Nat.digitChar (n % 10)]]
        have hlt : n / 10 < f := by
          have h1 : n / 10 < n := Nat.div_lt_self (by omega) (by norm_num)
          omega
        rw [List.foldl_append, ih (n / 10) hlt acc]
        simp only [List.foldl_cons, List.foldl_nil, List.length_append, List.length_cons,
          List.length_nil]
        rw [digitVal_digitChar (n % 10) (Nat.mod_lt n (by omega))]
        have := Nat.div_add_mod n 10
        ring_nf
        omega

theorem repr_data_inj {a b : Nat}
    (h : (Nat.repr a).data = (Nat.repr b).data) : a = b := by
  have hd : Nat.toDigits 10 a = Nat.toDigits 10 b := h
  have ha := foldl_toDigitsCore (a + 1) a (Nat.lt_succ_self a) 0
  have hb := foldl_toDigitsCore (b + 1) b (Nat.lt_succ_self b) 0
  unfold Nat.toDigits at hd
  rw [hd] at ha
  simp only [Nat.zero_mul, Nat.zero_add] at ha hb
  rw [ha] at hb
  omega

theorem toDigitsCore_ne_dash :
    ∀ (f n : Nat) (ds : List Char), (∀ c ∈ ds, c ≠ '-') →
      ∀ c ∈ Nat.toDigitsCore 10 f n ds, c ≠ '-' := by
  intro f
  induction f with
  | zero => intro n ds hds; exact hds
  | succ f ih =>
      intro n ds hds c hc
      have hdig : Nat.digitChar (n % 10) ≠ '-' :=
        digitChar_ne_dash (n % 10) (Nat.mod_lt n (by omega))
      by_cases h : n / 10 = 0
      · simp only [Nat.toDigitsCore, h, if_true] at hc
        rcases List.mem_cons.mp hc with rfl | hc'
        · exact hdig
        · exact hds c hc'
      · simp only [Nat.toDigitsCore, h, if_false] at hc
        refine ih (n / 10) (Nat.digitChar (n % 10) :: ds) ?_ c hc
        intro c' hc'
        rcases List.mem_cons.mp hc' with rfl | hc''
        · exact hdig
        · exact hds c' hc''

theorem repr_ne_dash (n : Nat) : ∀ c ∈ (Nat.repr n).data, c ≠ '-' :=
  toDigitsCore_ne_dash (n + 1) n [] (by intro c hc; cases hc)

theorem append_dash_inj :
    ∀ (as bs cs ds : List Char), (∀ c ∈ as, c ≠ '-') → (∀ c ∈ bs, c ≠ '-') →
      as ++ '-' :: cs = bs ++ '-' :: ds → as = bs ∧ cs = ds := by
  intro as
  induction as with
  | nil =>
      intro bs cs ds _ hb h
      cases bs with
      | nil => simpa using h
      | cons b bs' =>
          simp only [List.nil_append, List.cons_append, List.cons.injEq] at h
          exact absurd h.1.symm (hb b (List.mem_cons_self b bs'))
  | cons a as' ih =>
      intro bs cs ds ha hb h
      cases bs with
      | nil =>
          simp only [List.nil_append, List.cons_append, List.cons.injEq] at h
          exact absurd h.1 (ha a (List.mem_cons_self a as'))
      | cons b bs' =>
          simp only [List.cons_append, List.cons.injEq] at h
          obtain ⟨rfl, h2⟩ := h
          obtain ⟨h3, h4⟩ := ih bs' cs ds
            (fun c hc => ha c (List.mem_cons_of_mem _ hc))
            (fun c hc => hb c (List.mem_cons_of_mem _ hc)) h2
          exact ⟨by rw [h3], h4⟩



theorem customSoundId_inj {p t p' t' : Nat}
    (h : customSoundId p t = customSoundId p' t') : p = p' ∧ t = t' := by
  have hd := congrArg String.data h
  simp only [customSoundId, String.data_append, List.append_assoc] at hd
  have hd2 := List.append_cancel_left hd
  have hsep := append_dash_inj (Nat.repr p).data (Nat.repr p').data
    (Nat.repr t).data (Nat.repr t').data (repr_ne_dash p) (repr_ne_dash p') (by
      simpa using hd2)
  exact ⟨repr_data_inj hsep.1, repr_data_inj hsep.2⟩

theorem defaultSoundId_ne_customSoundId (i p t : Nat) :
    defaultSoundId i ≠ customSoundId p t := by
  intro h
  have hd := congrArg String.data h
  simp only [defaultSoundId, customSoundId, String.data_append, List.append_assoc] at hd
  simp only [List.cons_append, List.cons.injEq] at hd
  exact absurd hd.1 (by decide)

/-! ## Shape lemmas for the pad state machine -/

theorem playSound_pads (f : String) (s : AppState) : (playSound f s).pads = s.pads := by
  unfold playSound
  cases mapGet? s.audioBuffers f <;> rfl

theorem playSound_pendingDecays (f : String) (s : AppState) :
    (playSound f s).pendingDecays = s.pendingDecays := by
  unfold playSound
  cases mapGet? s.audioBuffers f <;> rfl

theorem playSound_audioBuffers (f : String) (s : AppState) :
    (playSound f s).audioBuffers = s.audioBuffers := by
  unfold playSound
  cases mapGet? s.audioBuffers f <;> rfl

theorem triggerPad_not_found (n : Nat) (s : AppState)
    (h : findIndex (fun pad => pad.note == n) s.pads = none) : triggerPad n s = s := by
  unfold triggerPad
  rw [h]

theorem triggerPad_found (n : Nat) (s : AppState) (j : Nat)
    (hfind : findIndex (fun pad => pad.note == n) s.pads = some j) :
    (triggerPad n s).pads
        = setAt s.pads j (fun p => { p with isActive := true, isPressed := true }) ∧
    (triggerPad n s).pendingDecays = s.pendingDecays ∧
    (triggerPad n s).audioBuffers = s.audioBuffers := by
  obtain ⟨p, hp, -⟩ := findIndex_some _ _ _ hfind
  unfold triggerPad
  rw [hfind]
  have hget : (setAt s.pads j fun q => { q with isActive := true, isPressed := true })[j]?
      = some { p with isActive := true, isPressed := true } := by
    rw [getElem?_setAt_self, hp]
    rfl
  dsimp only
  rw [hget]
  exact ⟨playSound_pads _ _, playSound_pendingDecays _ _, playSound_audioBuffers _ _⟩

theorem releasePad_not_found (n : Nat) (s : AppState)
    (h : findIndex (fun pad => pad.note == n) s.pads = none) : releasePad n s = s := by
  unfold releasePad
  rw [h]

theorem releasePad_found (n : Nat) (s : AppState) (j : Nat)
    (hfind : findIndex (fun pad => pad.note == n) s.pads = some j) :
    releasePad n s = { s with
        pads := setAt s.pads j (fun p => { p with isPressed := false })
        pendingDecays := s.pendingDecays ++ [j] } := by
  unfold releasePad
  rw [hfind]

theorem defaultSoundId_inj : Function.Injective defaultSoundId := by
  intro a b h
  have hd := congrArg String.data h
  simp only [defaultSoundId, String.data_append] at hd
  exact repr_data_inj (List.append_cancel_left hd)

/-! ## Claims -/

/-- C1: for every configured grid size with dimensions `(rows, cols)`,
`initializePads` produces exactly `rows*cols` pads; the pad at visual
row `r` (0 = top) and column `c` sits at linear index
`i = (rows-1-r)*cols + c` with `id = i` and `note = 36 + i`; the notes
listed in pad order are exactly `36, 37, …, 36 + rows*cols - 1` (hence
pairwise distinct and a contiguous range starting at 36); and the
bottom-left pad (visual row `rows-1`, column 0, list position 0) holds
note 36. -/
theorem initializePads_spec (gs : GridSize) :
    (initializePads (gridDimensions gs).1 (gridDimensions gs).2).length
        = (gridDimensions gs).1 * (gridDimensions gs).2 ∧
    (∀ r c, r < (gridDimensions gs).1 → c < (gridDimensions gs).2 →
      (((initializePads (gridDimensions gs).1 (gridDimensions gs).2)[
          ((gridDimensions gs).1 - 1 - r) * (gridDimensions gs).2 + c]?).map Pad.id
          = some (((gridDimensions gs).1 - 1 - r) * (gridDimensions gs).2 + c)) ∧
      (((initializePads (gridDimensions gs).1 (gridDimensions gs).2)[
          ((gridDimensions gs).1 - 1 - r) * (gridDimensions gs).2 + c]?).map Pad.note
          = some (36 + (((gridDimensions gs).1 - 1 - r) * (gridDimensions gs).2 + c))) ∧
      (((initializePads (gridDimensions gs).1 (gridDimensions gs).2)[
          ((gridDimensions gs).1 - 1 - r) * (gridDimensions gs).2 + c]?).map Pad.row
          = some r) ∧
      (((initializePads (gridDimensions gs).1 (gridDimensions gs).2)[
          ((gridDimensions gs).1 - 1 - r) * (gridDimensions gs).2 + c]?).map Pad.col
          = some c)) ∧
    ((initializePads (gridDimensions gs).1 (gridDimensions gs).2).map Pad.note
        = (List.range ((gridDimensions gs).1 * (gridDimensions gs).2)).map (fun i => 36 + i)) ∧
    ((initializePads (gridDimensions gs).1 (gridDimensions gs).2).map Pad.note).Nodup ∧
    (((initializePads (gridDimensions gs).1 (gridDimensions gs).2)[0]?).map Pad.row
        = some ((gridDimensions gs).1 - 1) ∧
     ((initializePads (gridDimensions gs).1 (gridDimensions gs).2)[0]?).map Pad.col = some 0 ∧
     ((initializePads (gridDimensions gs).1 (gridDimensions gs).2)[0]?).map Pad.note
        = some 36) := by
  set rows := (gridDimensions gs).1 with hrows
  set cols := (gridDimensions gs).2 with hcols
  have hr : 0 < rows := by rw [hrows]; cases gs <;> decide
  have hc : 0 < cols := by rw [hcols]; cases gs <;> decide
  have hmap := initializePads_eq_map rows cols hc
  refine ⟨?_, ?_, ?_, ?_, ?_⟩
  · rw [hmap]
    simp
  · intro r c hrlt hclt
    have hi : (rows - 1 - r) * cols + c < rows * cols := by
      have h1 : (rows - 1 - r) * cols + c < ((rows - 1 - r) + 1) * cols := by
        rw [Nat.add_mul, Nat.one_mul]
        omega
      have h2 : ((rows - 1 - r) + 1) * cols ≤ rows * cols :=
        Nat.mul_le_mul_right cols (by omega)
      omega
    rw [getElem?_initializePads rows cols _ hc hi]
    have hdiv : ((rows - 1 - r) * cols + c) / cols = rows - 1 - r := by
      rw [Nat.mul_comm (rows - 1 - r) cols, Nat.mul_add_div hc, Nat.div_eq_of_lt hclt]
      omega
    have hmod : ((rows - 1 - r) * cols + c) % cols = c := by
      rw [Nat.mul_comm (rows - 1 - r) cols, Nat.mul_add_mod, Nat.mod_eq_of_lt hclt]
    refine ⟨rfl, rfl, ?_, ?_⟩
    · simp only [padAt, Option.map_some']
      rw [hdiv]
      congr 1
      omega
    · simp only [padAt, Option.map_some']
      rw [hmod]
  · rw [hmap, List.map_map]
    rfl
  · rw [hmap, List.map_map]
    exact (List.nodup_range _).map (fun a b h => by
      simp only [Function.comp_apply, padAt] at h
      omega)
  · have h0 : (0 : Nat) < rows * cols := Nat.mul_pos hr hc
    rw [getElem?_initializePads rows cols 0 hc h0]
    refine ⟨?_, ?_, rfl⟩
    · simp [padAt]
    · simp [padAt]

/-- C1 witness: the 4×4 grid has 16 pads, and the pad at visual row 0
(top), column 1 sits at index 13 with id 13 and note 49. -/
theorem initializePads_spec_witness :
    (initializePads (gridDimensions .g4x4).1 (gridDimensions .g4x4).2).length
        = (gridDimensions .g4x4).1 * (gridDimensions .g4x4).2 ∧
    (((initializePads (gridDimensions .g4x4).1 (gridDimensions .g4x4).2)[
        ((gridDimensions .g4x4).1 - 1 - 0) * (gridDimensions .g4x4).2 + 1]?).map Pad.id
        = some (((gridDimensions .g4x4).1 - 1 - 0) * (gridDimensions .g4x4).2 + 1)) ∧
    (((initializePads (gridDimensions .g4x4).1 (gridDimensions .g4x4).2)[
        ((gridDimensions .g4x4).1 - 1 - 0) * (gridDimensions .g4x4).2 + 1]?).map Pad.note
        = some (36 + (((gridDimensions .g4x4).1 - 1 - 0) * (gridDimensions .g4x4).2 + 1))) := by
  have h := initializePads_spec .g4x4
  have h2 := h.2.1 0 1 (by decide) (by decide)
  exact ⟨h.1, h2.1, h2.2.1⟩

set_option maxRecDepth 4000 in
/-- The masked status byte `d0 & 0xf0` equals 16 times the high
nibble, for any byte. -/
theorem land240 : ∀ d, d < 256 → d &&& 240 = 16 * (d / 16) := by decide

/-- C2: for a 3-byte MIDI message `[d0, d1, d2]`, the handler emits a
press of note `d1` exactly when the status high nibble `d0 / 16` is
`0x9` and the velocity `d2` is positive; it emits a release of `d1`
exactly when the high nibble is `0x9` with velocity 0 or the high
nibble is `0x8` (velocity ignored); every other status produces no
event (and no error, the decoder being total); and the channel (low)
nibble never affects the result. -/
theorem handleMIDIMessage_spec (d0 d1 d2 : Nat) (h0 : d0 < 256) :
    (decodeMIDIMessage d0 d1 d2 = some (.press d1) ↔ d0 / 16 = 9 ∧ 0 < d2) ∧
    (decodeMIDIMessage d0 d1 d2 = some (.release d1) ↔
      (d0 / 16 = 9 ∧ d2 = 0) ∨ d0 / 16 = 8) ∧
    (d0 / 16 ≠ 9 → d0 / 16 ≠ 8 → decodeMIDIMessage d0 d1 d2 = none) ∧
    (∀ channel, channel < 16 →
      decodeMIDIMessage (16 * (d0 / 16) + channel) d1 d2 = decodeMIDIMessage d0 d1 d2) := by
  have hmask := land240 d0 h0
  by_cases h9 : d0 / 16 = 9
  · have c9 : (d0 &&& 240 == 144) = true := by
      rw [hmask, h9]
      rfl
    have hd : decodeMIDIMessage d0 d1 d2
        = if d2 > 0 then some (.press d1) else some (.release d1) := by
      simp [decodeMIDIMessage, c9]
    refine ⟨?_, ?_, ?_, ?_⟩
    · rw [hd]
      cases d2 with
      | zero => simp [h9]
      | succ m => simp [h9]
    · rw [hd]
      cases d2 with
      | zero => simp [h9]
      | succ m => simp [h9]
    · intro hn9 _
      exact absurd h9 hn9
    · intro ch hch
      have hlt : 16 * (d0 / 16) + ch < 256 := by omega
      have hdiv : (16 * (d0 / 16) + ch) / 16 = d0 / 16 := by omega
      have c9' : ((16 * (d0 / 16) + ch) &&& 240 == 144) = true := by
        rw [land240 _ hlt, hdiv, h9]
        rfl
      simp [decodeMIDIMessage, c9, c9']
  · have c9 : (d0 &&& 240 == 144) = false := by
      rw [hmask]
      simp only [beq_eq_false_iff_ne, ne_eq]
      omega
    by_cases h8 : d0 / 16 = 8
    · have c8 : (d0 &&& 240 == 128) = true := by
        rw [hmask, h8]
        rfl
      have hd : decodeMIDIMessage d0 d1 d2 = some (.release d1) := by
        simp [decodeMIDIMessage, c9, c8]
      refine ⟨?_, ?_, ?_, ?_⟩
      · rw [hd]
        simp [h9]
      · rw [hd]
        simp [h8]
      · intro _ hn8
        exact absurd h8 hn8
      · intro ch hch
        have hlt : 16 * (d0 / 16) + ch < 256 := by omega
        have hdiv : (16 * (d0 / 16) + ch) / 16 = d0 / 16 := by omega
        have c9' : ((16 * (d0 / 16) + ch) &&& 240 == 144) = false := by
          rw [land240 _ hlt, hdiv]
          simp only [beq_eq_false_iff_ne, ne_eq]
          omega
        have c8' : ((16 * (d0 / 16) + ch) &&& 240 == 128) = true := by
          rw [land240 _ hlt, hdiv, h8]
          rfl
        simp [decodeMIDIMessage, c9, c9', c8, c8']
    · have c8 : (d0 &&& 240 == 128) = false := by
        rw [hmask]
        simp only [beq_eq_false_iff_ne, ne_eq]
        omega
      have hd : decodeMIDIMessage d0 d1 d2 = none := by
        simp [decodeMIDIMessage, c9, c8]
      refine ⟨?_, ?_, ?_, ?_⟩
      · rw [hd]
        simp [h9]
      · rw [hd]
        simp [h8, h9]
      · intro _ _
        exact hd
      · intro ch hch
        have hlt : 16 * (d0 / 16) + ch < 256 := by omega
        have hdiv : (16 * (d0 / 16) + ch) / 16 = d0 / 16 := by omega
        have c9' : ((16 * (d0 / 16) + ch) &&& 240 == 144) = false := by
          rw [land240 _ hlt, hdiv]
          simp only [beq_eq_false_iff_ne, ne_eq]
          omega
        have c8' : ((16 * (d0 / 16) + ch) &&& 240 == 128) = false := by
          rw [land240 _ hlt, hdiv]
          simp only [beq_eq_false_iff_ne, ne_eq]
          omega
        simp [decodeMIDIMessage, c9, c9', c8, c8']

/-- C2 witness: `[0x90, 60, 100]` is a press of note 60, `[0x90, 60, 0]`
a release, and changing the channel nibble (here to 3) does not change
the outcome. -/
theorem handleMIDIMessage_spec_witness :
    (decodeMIDIMessage 144 60 100 = some (.press 60) ↔ 144 / 16 = 9 ∧ 0 < 100) ∧
    (decodeMIDIMessage 144 60 0 = some (.release 60) ↔
      (144 / 16 = 9 ∧ 0 = 0) ∨ 144 / 16 = 8) ∧
    decodeMIDIMessage (16 * (144 / 16) + 3) 60 100 = decodeMIDIMessage 144 60 100 := by
  refine ⟨(handleMIDIMessage_spec 144 60 100 (by decide)).1, ?_,
    (handleMIDIMessage_spec 144 60 100 (by decide)).2.2.2 3 (by decide)⟩
  exact (handleMIDIMessage_spec 144 60 0 (by decide)).2.1

/-- `fireDecay` only rewrites the captured pad index and consumes the
timer. -/
theorem fireDecay_pads (i : Nat) (s : AppState) :
    (fireDecay i s).pads = setAt s.pads i (fun p => { p with isActive := false }) := rfl

theorem fireDecay_pendingDecays (i : Nat) (s : AppState) :
    (fireDecay i s).pendingDecays = s.pendingDecays.erase i := rfl

/-- C3: for a pad (index `j`, matching note `n`) starting idle, a press
followed by a release drives it through idle `(false,false)` → held
`(true,true)` → releasing `(false,true)`, and it becomes idle again
exactly when the scheduled decay callback fires; a press arriving while
the pad is releasing immediately re-enters held, the already scheduled
decay callback stays pending (it is not cancelled), and when that stale
callback later fires it still clears `isActive`.  The 100ms duration
itself is not modelled: the timer is the pending callback. -/
theorem pad_press_release_cycle (s : AppState) (n j : Nat) (p : Pad)
    (hfind : findIndex (fun q => q.note == n) s.pads = some j)
    (hp : s.pads[j]? = some p)
    (hPressed : p.isPressed = false) (hActive : p.isActive = false) :
    (((triggerPad n s).pads[j]?).map (fun q => (q.isPressed, q.isActive))
        = some (true, true)) ∧
    (((releasePad n (triggerPad n s)).pads[j]?).map (fun q => (q.isPressed, q.isActive))
        = some (false, true)) ∧
    j ∈ (releasePad n (triggerPad n s)).pendingDecays ∧
    (((fireDecay j (releasePad n (triggerPad n s))).pads[j]?).map
        (fun q => (q.isPressed, q.isActive)) = some (false, false)) ∧
    (((triggerPad n (releasePad n (triggerPad n s))).pads[j]?).map
        (fun q => (q.isPressed, q.isActive)) = some (true, true)) ∧
    j ∈ (triggerPad n (releasePad n (triggerPad n s))).pendingDecays ∧
    (((fireDecay j (triggerPad n (releasePad n (triggerPad n s)))).pads[j]?).map
        (fun q => q.isActive) = some false) := by
  obtain ⟨ht1pads, ht1pend, -⟩ := triggerPad_found n s j hfind
  have hq1 : (triggerPad n s).pads[j]?
      = some { p with isActive := true, isPressed := true } := by
    rw [ht1pads, getElem?_setAt_self, hp]
    rfl
  have hfind1 : findIndex (fun q => q.note == n) (triggerPad n s).pads = some j := by
    rw [ht1pads, findIndex_setAt]
    · exact hfind
    · intro x
      rfl
  have hrel := releasePad_found n (triggerPad n s) j hfind1
  have hrelpads : (releasePad n (triggerPad n s)).pads
      = setAt (triggerPad n s).pads j (fun q => { q with isPressed := false }) := by
    rw [hrel]
  have hrelpend : (releasePad n (triggerPad n s)).pendingDecays
      = (triggerPad n s).pendingDecays ++ [j] := by
    rw [hrel]
  have hq2 : (releasePad n (triggerPad n s)).pads[j]?
      = some { p with isActive := true, isPressed := false } := by
    rw [hrelpads, getElem?_setAt_self, hq1]
    rfl
  have hpend2 : j ∈ (releasePad n (triggerPad n s)).pendingDecays := by
    rw [hrelpend]
    exact List.mem_append_right _ (List.mem_singleton.mpr rfl)
  have hq3 : (fireDecay j (releasePad n (triggerPad n s))).pads[j]?
      = some { p with isActive := false, isPressed := false } := by
    rw [fireDecay_pads, getElem?_setAt_self, hq2]
    rfl
  have hfind2 : findIndex (fun q => q.note == n)
      (releasePad n (triggerPad n s)).pads = some j := by
    rw [hrelpads, findIndex_setAt]
    · exact hfind1
    · intro x
      rfl
  obtain ⟨ht2pads, ht2pend, -⟩ := triggerPad_found n _ j hfind2
  have hq4 : (triggerPad n (releasePad n (triggerPad n s))).pads[j]?
      = some { p with isActive := true, isPressed := true } := by
    rw [ht2pads, getElem?_setAt_self, hq2]
    rfl
  have hpend4 : j ∈ (triggerPad n (releasePad n (triggerPad n s))).pendingDecays := by
    rw [ht2pend]
    exact hpend2
  have hq5 : (fireDecay j (triggerPad n (releasePad n (triggerPad n s)))).pads[j]?
      = some { p with isActive := false, isPressed := true } := by
    rw [fireDecay_pads, getElem?_setAt_self, hq4]
    rfl
  refine ⟨?_, ?_, hpend2, ?_, ?_, hpend4, ?_⟩ <;>
    simp [hq1, hq2, hq3, hq4, hq5]

/-- C3 witness: the cycle run on the mounted 4×4 component at note 36
(pad index 0). -/
theorem pad_press_release_cycle_witness :
    (((triggerPad 36 mountState).pads[0]?).map (fun q => (q.isPressed, q.isActive))
        = some (true, true)) ∧
    (((releasePad 36 (triggerPad 36 mountState)).pads[0]?).map
        (fun q => (q.isPressed, q.isActive)) = some (false, true)) ∧
    0 ∈ (releasePad 36 (triggerPad 36 mountState)).pendingDecays ∧
    (((fireDecay 0 (releasePad 36 (triggerPad 36 mountState))).pads[0]?).map
        (fun q => (q.isPressed, q.isActive)) = some (false, false)) := by
  have h := pad_press_release_cycle mountState 36 0 (padAt 4 4 0)
    (by decide) (by decide) rfl rfl
  exact ⟨h.1, h.2.1, h.2.2.1, h.2.2.2.1⟩

/-- `loadCustomSound` on a successful decode with a matching pad. -/
theorem loadCustomSound_ok_found (buf : Buffer) (fn : String) (pid t : Nat)
    (s : AppState) (j : Nat)
    (hfind : findIndex (fun pad => pad.id == pid) s.pads = some j) :
    loadCustomSound (.ok buf) fn pid t s = ({ s with
        audioBuffers := mapSet s.audioBuffers (customSoundId pid t) buf
        pads := setAt s.pads j fun p =>
          { p with soundFile := customSoundId pid t, hasCustomSound := true }
        customSoundNames := mapSet s.customSoundNames pid fn }, true) := by
  unfold loadCustomSound
  rw [hfind]

/-- `loadCustomSound` on a successful decode with no matching pad. -/
theorem loadCustomSound_ok_not_found (buf : Buffer) (fn : String) (pid t : Nat)
    (s : AppState)
    (hfind : findIndex (fun pad => pad.id == pid) s.pads = none) :
    loadCustomSound (.ok buf) fn pid t s = (s, true) := by
  unfold loadCustomSound
  rw [hfind]

/-- Every pad built by `initializePads` starts unpressed. -/
theorem mem_initializePads_isPressed (rows cols : Nat) (p : Pad)
    (hp : p ∈ initializePads rows cols) : p.isPressed = false := by
  unfold initializePads at hp
  rw [List.mem_flatMap] at hp
  obtain ⟨k, -, hk⟩ := hp
  rw [List.mem_map] at hk
  obtain ⟨c, -, rfl⟩ := hk
  rfl

theorem padFlagsInv_mountState : PadFlagsInv mountState := by
  intro i p hip hpress
  have hmem : p ∈ initializePads 4 4 := List.getElem?_mem hip
  rw [mem_initializePads_isPressed _ _ _ hmem] at hpress
  exact Bool.noConfusion hpress

theorem padFlagsInv_triggerPad (n : Nat) (s : AppState) (hInv : PadFlagsInv s)
    (hg : ∀ i, findIndex (fun pad => pad.note == n) s.pads = some i →
      i ∉ s.pendingDecays) : PadFlagsInv (triggerPad n s) := by
  cases hfind : findIndex (fun pad => pad.note == n) s.pads with
  | none =>
      rw [triggerPad_not_found n s hfind]
      exact hInv
  | some j =>
      obtain ⟨hpads, hpend, -⟩ := triggerPad_found n s j hfind
      intro i p hip hpress
      rw [hpend]
      rw [hpads] at hip
      by_cases hij : i = j
      · subst hij
        rw [getElem?_setAt_self] at hip
        cases hq : s.pads[i]? with
        | none =>
            rw [hq] at hip
            exact Option.noConfusion hip
        | some q =>
            rw [hq] at hip
            have hpq : p = { q with isActive := true, isPressed := true } := by
              simpa using hip.symm
            rw [hpq]
            exact ⟨rfl, hg i hfind⟩
      · rw [getElem?_setAt_ne _ _ _ _ hij] at hip
        exact hInv i p hip hpress

theorem padFlagsInv_releasePad (n : Nat) (s : AppState) (hInv : PadFlagsInv s) :
    PadFlagsInv (releasePad n s) := by
  cases hfind : findIndex (fun pad => pad.note == n) s.pads with
  | none =>
      rw [releasePad_not_found n s hfind]
      exact hInv
  | some j =>
      have hr := releasePad_found n s j hfind
      have hpads : (releasePad n s).pads
          = setAt s.pads j (fun q => { q with isPressed := false }) := by rw [hr]
      have hpend : (releasePad n s).pendingDecays = s.pendingDecays ++ [j] := by rw [hr]
      intro i p hip hpress
      rw [hpads] at hip
      rw [hpend]
      by_cases hij : i = j
      · subst hij
        rw [getElem?_setAt_self] at hip
        cases hq : s.pads[i]? with
        | none =>
            rw [hq] at hip
            exact Option.noConfusion hip
        | some q =>
            rw [hq] at hip
            have hpq : p = { q with isPressed := false } := by
              simpa using hip.symm
            rw [hpq] at hpress
            exact Bool.noConfusion hpress
      · rw [getElem?_setAt_ne _ _ _ _ hij] at hip
        obtain ⟨hact, hmem⟩ := hInv i p hip hpress
        refine ⟨hact, ?_⟩
        intro hmem2
        rcases List.mem_append.mp hmem2 with h | h
        · exact hmem h
        · exact hij (List.mem_singleton.mp h)

theorem padFlagsInv_fireDecay (i0 : Nat) (s : AppState) (hInv : PadFlagsInv s)
    (hmem : i0 ∈ s.pendingDecays) : PadFlagsInv (fireDecay i0 s) := by
  intro i p hip hpress
  rw [fireDecay_pads] at hip
  rw [fireDecay_pendingDecays]
  by_cases hij : i = i0
  · subst hij
    rw [getElem?_setAt_self] at hip
    cases hq : s.pads[i]? with
    | none =>
        rw [hq] at hip
        exact Option.noConfusion hip
    | some q =>
        rw [hq] at hip
        have hpq : p = { q with isActive := false } := by
          simpa using hip.symm
        have hqpress : q.isPressed = true := by
          rw [hpq] at hpress
          exact hpress
        obtain ⟨-, hnot⟩ := hInv i q hq hqpress
        exact absurd hmem hnot
  · rw [getElem?_setAt_ne _ _ _ _ hij] at hip
    obtain ⟨hact, hnot⟩ := hInv i p hip hpress
    exact ⟨hact, fun hmem2 => hnot (List.mem_of_mem_erase hmem2)⟩

theorem padFlagsInv_foldl_release (l : List Pad) (s : AppState)
    (hInv : PadFlagsInv s) :
    PadFlagsInv (l.foldl (fun st p => releasePad p.note st) s) := by
  induction l generalizing s with
  | nil => exact hInv
  | cons x xs ih => exact ih _ (padFlagsInv_releasePad _ _ hInv)

theorem padFlagsInv_globalUp (s : AppState) (hInv : PadFlagsInv s) :
    PadFlagsInv (handleGlobalMouseUp s) :=
  padFlagsInv_foldl_release _ _ hInv

theorem padFlagsInv_gridChange (gs : GridSize) (s : AppState) :
    PadFlagsInv (handleGridSizeChange gs s) := by
  intro i p hip hpress
  have hmem : p ∈ initializePads (gridDimensions gs).1 (gridDimensions gs).2 :=
    List.getElem?_mem hip
  rw [mem_initializePads_isPressed _ _ _ hmem] at hpress
  exact Bool.noConfusion hpress

theorem padFlagsInv_customLoad (d : Except String Buffer) (fn : String)
    (pid t : Nat) (s : AppState) (hInv : PadFlagsInv s) :
    PadFlagsInv (loadCustomSound d fn pid t s).1 := by
  cases d with
  | error msg => exact fun i p hip hpress => hInv i p hip hpress
  | ok buf =>
      cases hfind : findIndex (fun pad => pad.id == pid) s.pads with
      | none =>
          rw [loadCustomSound_ok_not_found buf fn pid t s hfind]
          exact hInv
      | some j =>
          rw [loadCustomSound_ok_found buf fn pid t s j hfind]
          intro i p hip hpress
          dsimp only at hip ⊢
          by_cases hij : i = j
          · subst hij
            rw [getElem?_setAt_self] at hip
            cases hq : s.pads[i]? with
            | none =>
                rw [hq] at hip
                exact Option.noConfusion hip
            | some q =>
                rw [hq] at hip
                have hpq :
                    p = { q with soundFile := customSoundId pid t, hasCustomSound := true } := by
                  simpa using hip.symm
                have hqpress : q.isPressed = true := by
                  rw [hpq] at hpress
                  exact hpress
                obtain ⟨hact, hnot⟩ := hInv i q hq hqpress
                rw [hpq]
                exact ⟨hact, hnot⟩
          · rw [getElem?_setAt_ne _ _ _ _ hij] at hip
            exact hInv i p hip hpress

/-- C4 counterexample: from the mounted component, press note 36,
release it (scheduling the 100ms decay callback), press it again while
the callback is still pending, then let the stale callback fire: the
pad at index 0 ends with `isPressed = true` and `isActive = false`,
which is none of the three listed machine states.  Every event in the
trace is a legal transition of the component. -/
theorem pad_flags_counterexample :
    Reachable (fireDecay 0 (triggerPad 36 (releasePad 36 (triggerPad 36 mountState)))) ∧
    ((fireDecay 0 (triggerPad 36 (releasePad 36 (triggerPad 36 mountState)))).pads[0]?).map
        (fun q => (q.isPressed, q.isActive)) = some (true, false) := by
  constructor
  · refine Relation.ReflTransGen.tail (Relation.ReflTransGen.tail
      (Relation.ReflTransGen.tail
        (Relation.ReflTransGen.single (Step.press 36 mountState))
        (Step.release 36 _))
      (Step.press 36 _))
      (Step.decay 0 _ ?_)
    decide
  · decide

/-- C4 amended: in every state of the guarded system — the component
restricted so that a pad is never pressed while its decay timer is
still pending, i.e. no stale timer ever fires on a held pad — each
pad's flag pair is one of the three listed machine states: idle
`(false, false)`, held `(true, true)`, or releasing `(false, true)`.
(The unguarded component violates the three-state invariant exactly
through the stale-timer race exhibited by the counterexample.) -/
theorem pad_flags_three_states (s : AppState) (h : GReachable s) :
    ∀ (i : Nat) (p : Pad), s.pads[i]? = some p →
      (p.isPressed = false ∧ p.isActive = false) ∨
      (p.isPressed = true ∧ p.isActive = true) ∨
      (p.isPressed = false ∧ p.isActive = true) := by
  have hInv : PadFlagsInv s := by
    induction h with
    | refl => exact padFlagsInv_mountState
    | tail hr hstep ih =>
        cases hstep with
        | press n s2 hg => exact padFlagsInv_triggerPad _ _ ih hg
        | release n s2 => exact padFlagsInv_releasePad _ _ ih
        | decay i s2 hmem => exact padFlagsInv_fireDecay _ _ ih hmem
        | globalUp s2 => exact padFlagsInv_globalUp _ ih
        | gridChange gs s2 => exact padFlagsInv_gridChange _ _
        | customLoad d fn pid t s2 => exact padFlagsInv_customLoad _ _ _ _ _ ih
  intro i p hip
  cases hpress : p.isPressed with
  | true => exact Or.inr (Or.inl ⟨rfl, (hInv i p hip hpress).1⟩)
  | false =>
      cases hact : p.isActive with
      | false => exact Or.inl ⟨rfl, rfl⟩
      | true => exact Or.inr (Or.inr ⟨rfl, rfl⟩)

/-- C4 witness: the mounted state is reachable in the guarded system
and its pad 0 is in one of the three machine states. -/
theorem pad_flags_three_states_witness :
    ((padAt 4 4 0).isPressed = false ∧ (padAt 4 4 0).isActive = false) ∨
    ((padAt 4 4 0).isPressed = true ∧ (padAt 4 4 0).isActive = true) ∨
    ((padAt 4 4 0).isPressed = false ∧ (padAt 4 4 0).isActive = true) :=
  pad_flags_three_states mountState Relation.ReflTransGen.refl 0 (padAt 4 4 0) (by decide)

/-- C5: if decoding of the user-supplied file fails, `loadCustomSound`
records an error message and leaves the pads (hence the target pad's
`soundFile` and `hasCustomSound`), the audio bank, and the custom-name
map exactly as they were, and reports failure.  The decode happens
before any state is touched, so nothing is rolled back — nothing was
written. -/
theorem loadCustomSound_failure (msg fileName : String) (padId now : Nat) (s : AppState) :
    (loadCustomSound (.error msg) fileName padId now s).1.pads = s.pads ∧
    (loadCustomSound (.error msg) fileName padId now s).1.audioBuffers = s.audioBuffers ∧
    (loadCustomSound (.error msg) fileName padId now s).1.customSoundNames
        = s.customSoundNames ∧
    (loadCustomSound (.error msg) fileName padId now s).1.error
        = some ("Failed to load sound file: " ++ msg) ∧
    (loadCustomSound (.error msg) fileName padId now s).2 = false :=
  ⟨rfl, rfl, rfl, rfl, rfl⟩

/-- C6: `playSound` with a sound id for which no buffer is registered
is a no-op: the state — pads, bank, and playback log — is returned
unchanged, and no exception can arise (the lookup failure short-circuits
before any playback source is created). -/
theorem playSound_unregistered (soundFile : String) (s : AppState)
    (h : mapGet? s.audioBuffers soundFile = none) : playSound soundFile s = s := by
  unfold playSound
  rw [h]

/-- C6 witness: playing the unregistered id `missing` on the mounted
state changes nothing. -/
theorem playSound_unregistered_witness :
    mapGet? mountState.audioBuffers "missing" = none ∧
    playSound "missing" mountState = mountState :=
  ⟨by decide, playSound_unregistered "missing" mountState (by decide)⟩

/-- C7: the color `getPadColor` returns for every pad under each
scheme: rainbow is `hsl(((note%12)*30 + row*15) % 360, 85%, 65%)`;
music-theory is `#FF5252` / `#448AFF` / `#69F0AE` for note classes
0 / 5 / 7 and `#9E9E9E` otherwise, independent of row and column;
checkerboard is `#212121` for even `row+col` and `#616161` for odd;
neon-glow is `hsl(((note%12)*30) % 360, 100%, 65%)`; mpc is always
`#424242`; midnight indexes the fixed 8-entry palette at
`((note%12) + row*2) % 8`. -/
theorem getPadColor_spec (pad : Pad) :
    (getPadColor .rainbow pad
        = "hsl(" ++ Nat.repr ((pad.note % 12 * 30 + pad.row * 15) % 360) ++ ", 85%, 65%)") ∧
    (getPadColor .musicTheory pad
        = if pad.note % 12 = 0 then "#FF5252"
          else if pad.note % 12 = 5 then "#448AFF"
          else if pad.note % 12 = 7 then "#69F0AE"
          else "#9E9E9E") ∧
    (∀ r c r' c' : Nat,
      getPadColor .musicTheory { pad with row := r, col := c }
        = getPadColor .musicTheory { pad with row := r', col := c' }) ∧
    (getPadColor .checkerboard pad
        = if (pad.row + pad.col) % 2 = 0 then "#212121" else "#616161") ∧
    (getPadColor .neonGlow pad
        = "hsl(" ++ Nat.repr (pad.note % 12 * 30 % 360) ++ ", 100%, 65%)") ∧
    (getPadColor .mpc pad = "#424242") ∧
    (getPadColor .midnight pad
        = synthwaveColors.getD ((pad.note % 12 + pad.row * 2) % 8) "#616161") := by
  refine ⟨rfl, rfl, ?_, rfl, rfl, rfl, rfl⟩
  intro r c r2 c2
  rfl

/-- C8 counterexample: the generated id is
`custom-sound-${padId}-${Date.now()}`, so two successful custom loads
for the same pad within the same millisecond (`now = 1000` twice) reuse
the same id: the second call succeeds, rebinds the pad to an id that
was already present in the bank before the call, and overwrites the
previously stored buffer — refuting "distinct from every id previously
present / stale ids are never reused". -/
theorem customSoundId_reuse_counterexample :
    mapGet? (loadCustomSound (.ok (.decoded 1)) "kick.wav" 0 1000 mountState).1.audioBuffers
        (customSoundId 0 1000) = some (.decoded 1) ∧
    (loadCustomSound (.ok (.decoded 2)) "snare.wav" 0 1000
        (loadCustomSound (.ok (.decoded 1)) "kick.wav" 0 1000 mountState).1).2 = true ∧
    ((loadCustomSound (.ok (.decoded 2)) "snare.wav" 0 1000
        (loadCustomSound (.ok (.decoded 1)) "kick.wav" 0 1000 mountState).1).1.pads[0]?).map
        Pad.soundFile = some (customSoundId 0 1000) ∧
    mapGet? (loadCustomSound (.ok (.decoded 2)) "snare.wav" 0 1000
        (loadCustomSound (.ok (.decoded 1)) "kick.wav" 0 1000 mountState).1).1.audioBuffers
        (customSoundId 0 1000) = some (.decoded 2) := by
  refine ⟨?_, ?_, ?_, ?_⟩ <;> decide

/-- C8 amended: a successful `loadCustomSound` stores the decoded
buffer under `custom-sound-${padId}-${Date.now()}` and rebinds the
target pad's `soundFile` to it, setting `hasCustomSound := true`; the
generated id is distinct from every id previously present in the bank
— so no stale id is reused and no existing entry disturbed — provided
every custom id already in the bank was generated at an earlier
millisecond (the id collides exactly when the same pad is assigned
twice within one `Date.now()` millisecond). -/
theorem loadCustomSound_success (buf : Buffer) (fileName : String) (padId now : Nat)
    (s : AppState) (j : Nat)
    (hfind : findIndex (fun pad => pad.id == padId) s.pads = some j)
    (hkeys : ∀ k v, mapGet? s.audioBuffers k = some v →
      (∃ i, k = defaultSoundId i) ∨ ∃ p t, t < now ∧ k = customSoundId p t) :
    (loadCustomSound (.ok buf) fileName padId now s).2 = true ∧
    mapGet? s.audioBuffers (customSoundId padId now) = none ∧
    mapGet? (loadCustomSound (.ok buf) fileName padId now s).1.audioBuffers
        (customSoundId padId now) = some buf ∧
    (∀ k, k ≠ customSoundId padId now →
      mapGet? (loadCustomSound (.ok buf) fileName padId now s).1.audioBuffers k
        = mapGet? s.audioBuffers k) ∧
    ((loadCustomSound (.ok buf) fileName padId now s).1.pads[j]?).map Pad.soundFile
        = (s.pads[j]?).map (fun _ => customSoundId padId now) ∧
    ((loadCustomSound (.ok buf) fileName padId now s).1.pads[j]?).map Pad.hasCustomSound
        = (s.pads[j]?).map (fun _ => true) := by
  have hfresh : mapGet? s.audioBuffers (customSoundId padId now) = none := by
    cases hm : mapGet? s.audioBuffers (customSoundId padId now) with
    | none => rfl
    | some v =>
        rcases hkeys _ v hm with ⟨i, hi⟩ | ⟨p, t, hlt, hct⟩
        · exact absurd hi.symm (defaultSoundId_ne_customSoundId i padId now)
        · obtain ⟨-, ht⟩ := customSoundId_inj hct
          omega
  rw [loadCustomSound_ok_found buf fileName padId now s j hfind]
  dsimp only
  refine ⟨rfl, hfresh, mapGet?_mapSet_self _ _ _, ?_, ?_, ?_⟩
  · intro k hk
    exact mapGet?_mapSet_ne _ _ _ _ hk
  · rw [getElem?_setAt_self]
    cases s.pads[j]? <;> rfl
  · rw [getElem?_setAt_self]
    cases s.pads[j]? <;> rfl

/-- C8 witness: a custom load into the mounted component with an
emptied bank: the call succeeds, the id was fresh, and the buffer is
stored under it. -/
theorem loadCustomSound_success_witness :
    (loadCustomSound (.ok (.decoded 7)) "kick.wav" 0 1000
        { mountState with audioBuffers := [] }).2 = true ∧
    mapGet? ({ mountState with audioBuffers := [] } : AppState).audioBuffers
        (customSoundId 0 1000) = none ∧
    mapGet? (loadCustomSound (.ok (.decoded 7)) "kick.wav" 0 1000
        { mountState with audioBuffers := [] }).1.audioBuffers
        (customSoundId 0 1000) = some (.decoded 7) := by
  have h := loadCustomSound_success (.decoded 7) "kick.wav" 0 1000
    { mountState with audioBuffers := [] } 0 (by decide)
    (fun k v hv => Option.noConfusion hv)
  exact ⟨h.1, h.2.1, h.2.2.1⟩

/-- C9: after `handleGridSizeChange` every pad of the regenerated
collection has `hasCustomSound = false` and `soundFile` equal to its
default tone id, the bank holds the default tone buffer under each such
id, and the custom-name map is empty — all custom assignments are
discarded. -/
theorem handleGridSizeChange_spec (gs : GridSize) (s : AppState) :
    (∀ p ∈ (handleGridSizeChange gs s).pads,
      p.hasCustomSound = false ∧ p.soundFile = defaultSoundId p.id) ∧
    (∀ p ∈ (handleGridSizeChange gs s).pads,
      mapGet? (handleGridSizeChange gs s).audioBuffers p.soundFile
        = some (defaultToneBuffer p.note)) ∧
    (handleGridSizeChange gs s).customSoundNames = [] := by
  have hc : 0 < (gridDimensions gs).2 := by cases gs <;> decide
  have hpads : (handleGridSizeChange gs s).pads
      = initializePads (gridDimensions gs).1 (gridDimensions gs).2 := rfl
  have hbuf : (handleGridSizeChange gs s).audioBuffers
      = loadDefaultSounds (initializePads (gridDimensions gs).1 (gridDimensions gs).2)
          s.audioBuffers := rfl
  refine ⟨?_, ?_, rfl⟩
  · intro p hp
    rw [hpads] at hp
    obtain ⟨i, hi, rfl⟩ := mem_initializePads _ _ hc p hp
    exact ⟨rfl, rfl⟩
  · intro p hp
    rw [hpads] at hp
    rw [hbuf]
    have hnd : ((initializePads (gridDimensions gs).1 (gridDimensions gs).2).map
        Pad.soundFile).Nodup := by
      rw [initializePads_eq_map _ _ hc, List.map_map]
      exact (List.nodup_range _).map (fun a b h => by
        simp only [Function.comp_apply, padAt] at h
        exact defaultSoundId_inj h)
    exact mapGet?_foldl_mapSet Pad.soundFile (fun q => defaultToneBuffer q.note) _ _ p hp hnd

/-- C9 witness: switching the mounted component to the 3×3 grid: pad 0
of the new grid is default-bound and its default tone is registered,
and the custom-name map is empty. -/
theorem handleGridSizeChange_spec_witness :
    ((padAt 3 3 0).hasCustomSound = false ∧
      (padAt 3 3 0).soundFile = defaultSoundId (padAt 3 3 0).id) ∧
    mapGet? (handleGridSizeChange .g3x3 mountState).audioBuffers (padAt 3 3 0).soundFile
      = some (defaultToneBuffer (padAt 3 3 0).note) ∧
    (handleGridSizeChange .g3x3 mountState).customSoundNames = [] := by
  have h := handleGridSizeChange_spec .g3x3 mountState
  have hmem : padAt 3 3 0 ∈ (handleGridSizeChange .g3x3 mountState).pads := by decide
  exact ⟨h.1 _ hmem, h.2.1 _ hmem, h.2.2⟩

/-- C10: `triggerPad` and `releasePad` on a note matching no pad leave
the entire state unchanged — every pad's fields, the timers, the bank,
and the playback log (no playback is requested) — and in particular
they do so for every note outside `36 .. 36 + rows*cols - 1` when the
pads are a freshly initialized grid. -/
theorem trigger_release_no_match :
    (∀ (s : AppState) (n : Nat), (∀ p ∈ s.pads, p.note ≠ n) →
      triggerPad n s = s ∧ releasePad n s = s) ∧
    (∀ (rows cols : Nat) (s : AppState) (n : Nat), 0 < cols →
      s.pads = initializePads rows cols → ¬(36 ≤ n ∧ n < 36 + rows * cols) →
      triggerPad n s = s ∧ releasePad n s = s) := by
  have main : ∀ (s : AppState) (n : Nat), (∀ p ∈ s.pads, p.note ≠ n) →
      triggerPad n s = s ∧ releasePad n s = s := by
    intro s n h
    have hfind : findIndex (fun pad => pad.note == n) s.pads = none := by
      rw [findIndex_eq_none_iff]
      intro x hx
      simp only [beq_eq_false_iff_ne, ne_eq]
      exact h x hx
    exact ⟨triggerPad_not_found n s hfind, releasePad_not_found n s hfind⟩
  refine ⟨main, ?_⟩
  intro rows cols s n hc hpads hrange
  apply main
  intro p hp
  rw [hpads] at hp
  obtain ⟨i, hi, rfl⟩ := mem_initializePads _ _ hc p hp
  simp only [padAt]
  omega

/-- C10 witness: note 99 is outside the mounted 4×4 grid's range
`36..51`; triggering or releasing it changes nothing. -/
theorem trigger_release_no_match_witness :
    triggerPad 99 mountState = mountState ∧ releasePad 99 mountState = mountState :=
  trigger_release_no_match.2 4 4 mountState 99 (by decide) rfl (by decide)

end SoundBored
